import Mathlib

/-!
Shallow embedding of `src/JsonWriter.h` (namespace `Json`), a write-only
JSON document builder: a tree of scalar / array / object nodes rendered to
an output stream.

Modelling conventions:
* `std::ostream` output is modelled as a `List Char` buffer together with
  the decimal-point character of the stream's imbued `numpunct` facet
  (`OStream`); each `write` method appends characters to the buffer.
* `os << (int)` is modelled by `intDecimal` (decimal digits, `-` sign for
  negative values); `os << (bool)` with the stream's default flags
  (`boolalpha` is never set anywhere in the source) inserts the value as
  the integer `1` or `0`.
* A finite floating-point value is modelled at the level of the character
  sequence `std::num_put` produces for it: a sign, the integer-part digits
  and the fraction digits (`FloatRepr`); the separator character between
  the two digit groups is the one supplied by the imbued locale's
  `numpunct::do_decimal_point`, which is exactly the locale-dependent part
  of the conversion.  `num_put` always emits at least one integer digit,
  recorded as the invariant `intNonempty`.
* Array elements are values of the array's element type, not `Node`
  objects: an `Array<const char*>` element (the initializer-list insert
  with string literals deduces `T = const char*`) is inserted by the
  generic `writeImpl` as `os << (const char*)` — raw characters, no
  quotes, no escaping — while a `std::string` element hits the escaping
  `writeImpl` overload.
* `std::tm` is modelled by `Tm` with the source's field names (values of a
  calendar timestamp, hence non-negative); `std::put_time` with the fixed
  format `"%Y-%m-%dT%H:%M:%S"` prints `1900 + tm_year` unpadded and the
  five remaining fields zero-padded to width 2.
-/

set_option maxHeartbeats 1000000
set_option maxRecDepth 8192

namespace Json

/-- Calendar timestamp, mirroring the `std::tm` fields used by
`%Y-%m-%dT%H:%M:%S` (field names and order as in `struct tm`;
`tm_year` counts years since 1900, `tm_mon` months since January). -/
structure Tm where
  tm_sec : Nat
  tm_min : Nat
  tm_hour : Nat
  tm_mday : Nat
  tm_mon : Nat
  tm_year : Nat
  deriving DecidableEq, Repr

/-- A finite `double`, abstracted as the character data `std::num_put`
derives from it: sign, integer-part digits, fraction digits.  The digit
sequences are locale-independent; only the separator character placed
between them comes from the stream's locale.  `num_put` always produces at
least one integer digit. -/
structure FloatRepr where
  neg : Bool
  intDigits : List Char
  fracDigits : List Char
  intNonempty : intDigits ≠ []

mutual

/-- The node tree of `Json`: `Value<T>` for each supported leaf type,
`Array<T>` (children in insertion order) and `Object`
(an `unordered_map<std::string, std::shared_ptr<Node>>`, modelled as an
association list; the model fixes insertion order as the iteration order,
which is one of the unspecified orders the container may present).
`vstr` is `Value<std::string>` — it is what `Node::create(const char*)`
produces for a scalar `char*` value too, since that overload builds a
`Value<std::string>`. -/
inductive JNode where
  | vstr (s : String)
  | vint (i : Int)
  | vbool (b : Bool)
  | vtm (t : Tm)
  | vfloat (f : FloatRepr)
  | arr (xs : List JElem)
  | obj (es : List (String × JNode))

/-- One element of an `Array<T>`.  The elements of an array are plain
values of the element type `T`, not `Node` objects.  `cstr` is the element
of an `Array<const char*>` — the instantiation the initializer-list insert
`Object::operator()(name, {"a", "b"})` produces, since a braced list of
string literals deduces `T = const char*`.  `node` covers every other
element type the API builds (scalars, `Object`, nested arrays), whose
element rendering agrees with the rendering of the corresponding node. -/
inductive JElem where
  | cstr (s : String)
  | node (n : JNode)

end

/-- The character for a decimal digit (`'0' + d` as produced by the
stream's integer conversion). -/
def digitChar (d : Nat) : Char := Char.ofNat (48 + d)

/-- Decimal digit characters of a natural number, most significant
first. -/
def natDecimal (n : Nat) : List Char :=
  if _h : n < 10 then [digitChar n]
  else natDecimal (n / 10) ++ [digitChar (n % 10)]
termination_by n
decreasing_by omega

/-- `os << (int)`: decimal text, `-` prefix for negative values. -/
def intDecimal (i : Int) : List Char :=
  if i < 0 then '-' :: natDecimal i.natAbs else natDecimal i.toNat

/-- The escaping loop of `Node::writeImpl(std::ostream&, const std::string&)`:
each character is appended to the `ostringstream` accumulator, with a `'\'`
first when it is `'"'`, `'\'` or `'/'`. -/
def escapeLoop : List Char → List Char → List Char
  | [], acc => acc
  | c :: cs, acc =>
    if c = '"' ∨ c = '\\' ∨ c = '/' then escapeLoop cs (acc ++ ['\\', c])
    else escapeLoop cs (acc ++ [c])

/-- `Node::writeImpl` for `std::string`: the escaped body wrapped in double
quotes. -/
def writeImplStr (s : String) : List Char :=
  '"' :: (escapeLoop s.data [] ++ ['"'])

/-- `%02d`-style zero padding to width 2, as `put_time` applies to
month, day, hour, minute and second. -/
def pad2 (n : Nat) : List Char :=
  if n < 10 then '0' :: natDecimal n else natDecimal n

/-- Output of `std::put_time(&value, "%Y-%m-%dT%H:%M:%S")`. -/
def putTimeISO (t : Tm) : List Char :=
  natDecimal (1900 + t.tm_year) ++ '-' :: pad2 (t.tm_mon + 1) ++
    '-' :: pad2 t.tm_mday ++ 'T' :: pad2 t.tm_hour ++
    ':' :: pad2 t.tm_min ++ ':' :: pad2 t.tm_sec

/-- `Node::writeImpl` for `std::tm`: the `put_time` text wrapped in double
quotes. -/
def writeImplTm (t : Tm) : List Char :=
  '"' :: (putTimeISO t ++ ['"'])

/-- `os << (double)` for a finite value: sign, integer digits, and — when
the conversion produces fraction digits — the locale's decimal-point
character followed by those digits. -/
def formatFloat (sep : Char) (f : FloatRepr) : List Char :=
  (if f.neg then ['-'] else []) ++ f.intDigits ++
    (if f.fracDigits = [] then [] else sep :: f.fracDigits)

mutual

/-- `write` of each concrete node class, as the characters it appends to
the stream; `sep` is the decimal-point character of the stream's current
locale.  `Value<T>::write` dispatches to the `writeImpl` overloads;
`Array<T>::write` and `Object::write` emit their bracketed child lists. -/
def writeNode (sep : Char) : JNode → List Char
  | .vstr s => writeImplStr s
  | .vint i => intDecimal i
  | .vbool b => if b then ['1'] else ['0']
  | .vtm t => writeImplTm t
  | .vfloat f => formatFloat sep f
  | .arr xs => '[' :: (writeElems sep xs ++ [']'])
  | .obj es => '{' :: (writeEntries es ++ ['}'])

/-- `writeImpl(os, *it)` on one array element.  For an element of type
`const char*` overload resolution picks the generic template
`writeImpl(os, const T&)` (an exact match, preferred over the
`const std::string&` overload, which would need a user-defined
conversion), so `os << (const char*)` emits the characters raw — no
quotes, no escaping.  A `std::string` element hits the escaping overload,
a scalar element is inserted directly with the stream's current locale,
and an element that is itself a `Node` (nested array or object) goes
through `operator<<(std::ostream&, const Node&)`, which first imbues the
decimal-point facet. -/
def writeElem (sep : Char) : JElem → List Char
  | .cstr s => s.data
  | .node n =>
    match n with
    | .arr xs => writeNode '.' (.arr xs)
    | .obj es => writeNode '.' (.obj es)
    | n => writeNode sep n

/-- The loop of `Array<T>::write`: each element, with a `','` after it
whenever another element follows. -/
def writeElems (sep : Char) : List JElem → List Char
  | [] => []
  | [x] => writeElem sep x
  | x :: y :: rest => writeElem sep x ++ ',' :: writeElems sep (y :: rest)

/-- The loop of `Object::write`: each entry, with a `','` after it whenever
another entry follows. -/
def writeEntries : List (String × JNode) → List Char
  | [] => []
  | [(k, v)] => entryChars k v
  | (k, v) :: e :: rest => entryChars k v ++ ',' :: writeEntries (e :: rest)

/-- One object entry: `os << '"' << it->first << "\":" << *it->second` —
the key verbatim between double quotes, a colon, then the child node via
`operator<<`, which imbues the decimal-point facet before writing. -/
def entryChars (k : String) (v : JNode) : List Char :=
  '"' :: (k.data ++ '"' :: ':' :: writeNode '.' v)

end

/-- The observable state of a `std::ostream` used by the writer: the
characters written so far and the decimal-point character of the imbued
locale's `numpunct` facet. -/
structure OStream where
  buf : List Char
  decimalSep : Char

/-- `operator<<(std::ostream&, const Node&)`: imbue the stream with
`details::DecimalPointFacet` (whose `do_decimal_point` returns `'.'`),
then call the node's `write` on the stream. -/
def osShlNode (os : OStream) (n : JNode) : OStream :=
  let os1 : OStream := { os with decimalSep := '.' }
  { os1 with buf := os1.buf ++ writeNode os1.decimalSep n }

/-- Render a node into a fresh stream whose ambient locale supplies `loc`
as decimal-point character, and return the text written. -/
def render (loc : Char) (n : JNode) : String :=
  ⟨(osShlNode ⟨[], loc⟩ n).buf⟩

/-- The effect of `children[name] = ...` on the
`unordered_map<std::string, std::shared_ptr<Node>>` when the key is
already present: the mapped value of the entry holding the key is
replaced. -/
def assignFun (k : String) (v : JNode) : String × JNode → String × JNode :=
  fun p => if p.1 = k then (k, v) else p

/-- `unordered_map::operator[]` followed by assignment: overwrite the
entry whose key equals `k` when one exists, otherwise add a new entry.
The real container presents its entries in an unspecified order; the
model keeps them in insertion order, one of the admissible orders. -/
def mapAssign (m : List (String × JNode)) (k : String) (v : JNode) :
    List (String × JNode) :=
  if m.any (fun p => p.1 == k) then m.map (assignFun k v)
  else m ++ [(k, v)]

/-- `Object::operator()(const std::string&, const T&)`:
`children[name] = Node::create(value); return *this;`. -/
def objInsert (o : List (String × JNode)) (name : String) (v : JNode) :
    List (String × JNode) :=
  mapAssign o name v

/-- The escaping rule as the specification states it: `'"'`, `'\'` and
`'/'` receive exactly one leading backslash, every other character passes
through unchanged. -/
def escapeCharSpec (c : Char) : List Char :=
  if c = '"' ∨ c = '\\' ∨ c = '/' then ['\\', c] else [c]

/-! ## Helper lemmas -/

theorem escapeLoop_eq (cs : List Char) (acc : List Char) :
    escapeLoop cs acc = acc ++ (cs.map escapeCharSpec).flatten := by
  induction cs generalizing acc with
  | nil => simp [escapeLoop]
  | cons c cs ih =>
    by_cases h : c = '"' ∨ c = '\\' ∨ c = '/' <;>
      simp [escapeLoop, h, escapeCharSpec, ih]

theorem natDecimal_ne_nil (n : Nat) : natDecimal n ≠ [] := by
  rw [natDecimal]
  split <;> simp

theorem writeNode_ne_nil (sep : Char) (n : JNode) : writeNode sep n ≠ [] := by
  cases n with
  | vstr s => simp [writeNode, writeImplStr]
  | vint i =>
    simp only [writeNode, intDecimal]
    split <;> simp [natDecimal_ne_nil]
  | vbool b => cases b <;> simp [writeNode]
  | vtm t => simp [writeNode, writeImplTm]
  | vfloat f =>
    simp only [writeNode, formatFloat]
    intro h
    rw [List.append_eq_nil, List.append_eq_nil] at h
    exact f.intNonempty h.1.2
  | arr xs => simp [writeNode]
  | obj es => simp [writeNode]

/-! ## Claims -/

/-- C1 counterexample: a string inserted into the tree as an element of
an `Array<const char*>` (the instantiation the initializer-list insert
builds from string literals) is written by the generic
`writeImpl` — `os << (const char*)` — so the value `x"y` renders raw
inside the array: no wrapping quotes and no backslash anywhere in the
output, falsifying the universal escaping claim. -/
theorem cstr_array_renders_raw :
    render '.' (.arr [.cstr "x\"y"]) = "[x\"y]" ∧
    '\\' ∉ (render '.' (.arr [.cstr "x\"y"])).data := by
  constructor
  · simp [render, osShlNode, writeNode, writeElems, writeElem, String.ext_iff]
  · simp [render, osShlNode, writeNode, writeElems, writeElem]

/-- C1 (amended): every string value inserted as a `std::string` — scalar
string values (including scalar `char*` values, which `Node::create`
converts to `Value<std::string>`) and `std::string` array elements —
renders wrapped in double quotes, with `'"'`, `'\'` and `'/'` each
preceded by exactly one backslash and every other character (control
characters included) passed through unchanged, with no other escaping;
an element of an `Array<const char*>`, however, is emitted raw —
its characters unchanged, with no quotes and no escaping. -/
theorem string_value_escaping :
    (∀ loc s, render loc (.vstr s) =
      ⟨'"' :: ((s.data.map escapeCharSpec).flatten ++ ['"'])⟩) ∧
    (∀ sep s, writeElem sep (.cstr s) = s.data) := by
  constructor
  · intro loc s
    simp [render, osShlNode, writeNode, writeImplStr, escapeLoop_eq]
  · intro sep s
    simp [writeElem]

/-- C2 counterexample: a boolean scalar is inserted into the stream with
the default formatting flags (`boolalpha` is never set), so `true` renders
as the text `1`, not as the literal `true` the claim states. -/
theorem bool_true_renders_one :
    render '.' (.vbool true) = "1" ∧ render '.' (.vbool true) ≠ "true" := by
  constructor
  · simp only [render, osShlNode, writeNode]
    decide
  · simp only [render, osShlNode, writeNode]
    decide

/-- C2 (amended): a boolean scalar renders as the unquoted text `1` for
`true` and `0` for `false` (C++ default stream formatting of `bool`). -/
theorem bool_renders_as_digit (loc : Char) (b : Bool) :
    render loc (.vbool b) = if b then "1" else "0" := by
  cases b <;> simp only [render, osShlNode, writeNode] <;> decide

/-- C3: for every node tree, rendering produces the same text whatever
decimal-point character the stream's ambient locale supplies, and a
floating-point scalar's text uses `'.'` as the decimal separator
(the `DecimalPointFacet` imbued by `operator<<` forces it). -/
theorem locale_independent_render :
    (∀ loc1 loc2 n, render loc1 n = render loc2 n) ∧
    (∀ loc f, render loc (.vfloat f) =
      ⟨(if f.neg then ['-'] else []) ++ f.intDigits ++
        (if f.fracDigits = [] then [] else '.' :: f.fracDigits)⟩) := by
  constructor
  · intro loc1 loc2 n
    rfl
  · intro loc f
    simp [render, osShlNode, writeNode, formatFloat]

/-- C5: an array renders as `[`, the elements' renderings in insertion
order joined by single commas (no trailing comma), then `]`; the empty
array renders `[]` and the int array `1,2,3` renders `[1,2,3]`. -/
theorem array_render_spec :
    (∀ sep xs, writeElems sep xs = List.intercalate [','] (xs.map (writeElem sep))) ∧
    (∀ loc, render loc (.arr []) = "[]") ∧
    (∀ loc, render loc (.arr [.node (.vint 1), .node (.vint 2), .node (.vint 3)]) = "[1,2,3]") := by
  refine ⟨?_, ?_, ?_⟩
  · intro sep xs
    induction xs with
    | nil => simp [writeElems, List.intercalate]
    | cons x rest ih =>
      cases rest with
      | nil => simp [writeElems, List.intercalate]
      | cons y rest2 =>
        rw [writeElems, ih]
        simp [List.intercalate, List.intersperse]
  · intro loc
    simp only [render, osShlNode, writeNode, writeElems]
    decide
  · intro loc
    simp [render, osShlNode, writeNode, writeElems, writeElem,
      intDecimal, natDecimal, digitChar, String.ext_iff]

theorem map_fst_assign (m : List (String × JNode)) (k : String) (v : JNode) :
    (m.map (assignFun k v)).map Prod.fst = m.map Prod.fst := by
  induction m with
  | nil => simp
  | cons p rest ih => by_cases h : p.1 = k <;> simp [assignFun, h, ih]

theorem any_key_eq (m : List (String × JNode)) (k : String) :
    (m.any fun p => p.1 == k) = true ↔ k ∈ m.map Prod.fst := by
  simp [List.any_eq_true, List.mem_map]

theorem assign_absent (m : List (String × JNode)) (k : String) (v : JNode)
    (h : ∀ p ∈ m, p.1 ≠ k) : m.map (assignFun k v) = m := by
  induction m with
  | nil => simp
  | cons p rest ih =>
    have hp := h p (by simp)
    simp only [List.map_cons, assignFun, if_neg hp]
    rw [ih fun q hq => h q (by simp [hq])]

/-- C6: an object renders as a braced, comma-separated list of
`"key":value` entries (one per stored entry, in the model's iteration
order; no trailing comma); the empty object renders `\x7b\x7d`; the key
set after an insertion is the inserted key together with the previous
keys, and key distinctness is preserved, so each distinct inserted key
appears exactly once. -/
theorem object_render_spec :
    (∀ es, writeEntries es = List.intercalate [','] (es.map fun e => entryChars e.1 e.2)) ∧
    (∀ loc, render loc (.obj []) = "\x7b\x7d") ∧
    (∀ m k v k', k' ∈ (objInsert m k v).map Prod.fst ↔ (k' = k ∨ k' ∈ m.map Prod.fst)) ∧
    (∀ m k v, (m.map Prod.fst).Nodup → ((objInsert m k v).map Prod.fst).Nodup) := by
  refine ⟨?_, ?_, ?_, ?_⟩
  · intro es
    induction es with
    | nil => simp [writeEntries, List.intercalate]
    | cons e rest ih =>
      obtain ⟨k, v⟩ := e
      cases rest with
      | nil => simp [writeEntries, List.intercalate]
      | cons e2 rest2 =>
        rw [writeEntries, ih]
        simp [List.intercalate, List.intersperse]
  · intro loc
    simp only [render, osShlNode, writeNode, writeEntries]
    decide
  · intro m k v k'
    simp only [objInsert, mapAssign]
    split
    · next hany =>
      rw [map_fst_assign]
      have hk := (any_key_eq m k).mp hany
      constructor
      · exact fun h => Or.inr h
      · rintro (rfl | h)
        · exact hk
        · exact h
    · simp [or_comm]
  · intro m k v hnd
    simp only [objInsert, mapAssign]
    split
    · next hany => rw [map_fst_assign]; exact hnd
    · next hany =>
      have hk : k ∉ m.map Prod.fst := fun h => hany ((any_key_eq m k).mpr h)
      simp [List.nodup_append, hnd, hk]

theorem assign_assign (k : String) (v1 v2 : JNode) (p : String × JNode) :
    assignFun k v2 (assignFun k v1 p) = assignFun k v2 p := by
  by_cases h : p.1 = k <;> simp [assignFun, h]

theorem filter_assign_of_mem (m : List (String × JNode)) (k : String) (v : JNode)
    (hnd : (m.map Prod.fst).Nodup) (hk : k ∈ m.map Prod.fst) :
    (m.map (assignFun k v)).filter (fun p => p.1 == k) = [(k, v)] := by
  induction m with
  | nil => simp at hk
  | cons p rest ih =>
    simp only [List.map_cons, List.nodup_cons] at hnd
    by_cases hp : p.1 = k
    · have hrest : ∀ q ∈ rest, q.1 ≠ k := by
        intro q hq hqk
        apply hnd.1
        rw [hp, ← hqk]
        exact List.mem_map_of_mem Prod.fst hq
      rw [List.map_cons, assign_absent rest k v hrest]
      simp only [assignFun, if_pos hp, List.filter_cons]
      have : ((k, v).1 == k) = true := by simp
      rw [if_pos this]
      have : rest.filter (fun p => p.1 == k) = [] := by
        rw [List.filter_eq_nil_iff]
        intro q hq
        simp [hrest q hq]
      rw [this]
    · have hk' : k ∈ rest.map Prod.fst := by
        rcases (List.mem_map).mp hk with ⟨q, hq, hqk⟩
        rcases List.mem_cons.mp hq with h1 | h2
        · exact absurd (h1 ▸ hqk : p.1 = k) hp
        · exact hqk ▸ List.mem_map_of_mem Prod.fst h2
      rw [List.map_cons]
      simp only [assignFun, if_neg hp, List.filter_cons]
      have : (p.1 == k) = false := by simp [hp]
      rw [this]
      exact ih hnd.2 hk'

/-- C4: inserting `v1` and then `v2` under the same key `k` is not an
error; it leaves the object with exactly one entry for `k`, holding `v2`,
and equals the object obtained by inserting only `v2`. -/
theorem object_last_write_wins (m : List (String × JNode)) (k : String)
    (v1 v2 : JNode) (hnd : (m.map Prod.fst).Nodup) :
    (objInsert (objInsert m k v1) k v2).filter (fun p => p.1 == k) = [(k, v2)] ∧
    objInsert (objInsert m k v1) k v2 = objInsert m k v2 := by
  by_cases hk : k ∈ m.map Prod.fst
  · have hany : (m.any fun p => p.1 == k) = true := (any_key_eq m k).mpr hk
    have h1 : objInsert m k v1 = m.map (assignFun k v1) := by
      simp [objInsert, mapAssign, hany]
    have hany1 : ((m.map (assignFun k v1)).any fun p => p.1 == k) = true := by
      rw [any_key_eq, map_fst_assign]
      exact hk
    have h2 : objInsert (objInsert m k v1) k v2 = m.map (assignFun k v2) := by
      rw [h1]
      simp only [objInsert, mapAssign, hany1, if_pos]
      rw [List.map_map]
      exact List.map_congr_left fun p _ => assign_assign k v1 v2 p
    refine ⟨?_, ?_⟩
    · rw [h2]
      exact filter_assign_of_mem m k v2 hnd hk
    · rw [h2]
      simp [objInsert, mapAssign, hany]
  · have hany : (m.any fun p => p.1 == k) = false := by
      rw [Bool.eq_false_iff]
      intro h
      exact hk ((any_key_eq m k).mp h)
    have hnone : ∀ p ∈ m, p.1 ≠ k := by
      intro p hp hpk
      exact hk (hpk ▸ List.mem_map_of_mem Prod.fst hp)
    have h1 : objInsert m k v1 = m ++ [(k, v1)] := by
      simp [objInsert, mapAssign, hany]
    have hany1 : ((m ++ [(k, v1)]).any fun p => p.1 == k) = true := by
      rw [any_key_eq]
      simp
    have h2 : objInsert (objInsert m k v1) k v2 = m ++ [(k, v2)] := by
      rw [h1]
      simp only [objInsert, mapAssign, hany1, if_pos, List.map_append]
      rw [assign_absent m k v2 hnone]
      simp [assignFun]
    refine ⟨?_, ?_⟩
    · rw [h2, List.filter_append]
      have hm : m.filter (fun p => p.1 == k) = [] := by
        rw [List.filter_eq_nil_iff]
        intro q hq
        simp [hnone q hq]
      rw [hm]
      simp
    · rw [h2]
      simp [objInsert, mapAssign, hany]

theorem object_last_write_wins_witness :
    (objInsert (objInsert [("b", .vint 7)] "a" (.vint 1)) "a" (.vint 2)).filter
        (fun p => p.1 == "a") = [("a", JNode.vint 2)] ∧
    objInsert (objInsert [("b", .vint 7)] "a" (.vint 1)) "a" (.vint 2) =
      objInsert [("b", .vint 7)] "a" (.vint 2) :=
  object_last_write_wins [("b", .vint 7)] "a" (.vint 1) (.vint 2) (by simp)

theorem object_render_spec_witness :
    ((objInsert [] "a" (.vint 1)).map Prod.fst).Nodup :=
  object_render_spec.2.2.2 [] "a" (.vint 1) (by simp)

/-- C10 (implicit): object keys are emitted verbatim between double
quotes with no escaping — for every key the rendered entry contains the
key's characters unchanged, so a key containing `'"'` yields output where
that quote is not backslash-escaped, unlike the same characters in a
string value. -/
theorem object_key_verbatim :
    (∀ loc k v, (render loc (.obj [(k, v)])).data =
      '{' :: '"' :: (k.data ++ '"' :: ':' :: (writeNode '.' v ++ ['}']))) ∧
    (∀ loc, render loc (.obj [("a\"b", .vint 7)]) = "\x7b\"a\"b\":7\x7d") ∧
    (∀ loc, '\\' ∉ (render loc (.obj [("a\"b", .vint 7)])).data) ∧
    (∀ loc, render loc (.vstr "a\"b") = "\"a\\\"b\"") := by
  refine ⟨?_, ?_, ?_, ?_⟩
  · intro loc k v
    simp [render, osShlNode, writeNode, writeEntries, entryChars]
  · intro loc
    simp [render, osShlNode, writeNode, writeEntries, entryChars,
      intDecimal, natDecimal, digitChar, String.ext_iff]
  · intro loc
    simp [render, osShlNode, writeNode, writeEntries, entryChars,
      intDecimal, natDecimal, digitChar, String.ext_iff]
  · intro loc
    simp [render, osShlNode, writeNode, writeImplStr, escapeLoop, String.ext_iff]

theorem natDecimal_single (n : Nat) (h : n < 10) : natDecimal n = [digitChar n] := by
  rw [natDecimal]
  simp [h]

theorem natDecimal_step (n : Nat) (h : 10 ≤ n) :
    natDecimal n = natDecimal (n / 10) ++ [digitChar (n % 10)] := by
  conv_lhs => rw [natDecimal]
  simp [show ¬n < 10 by omega]

theorem natDecimal_len2 (n : Nat) (h1 : 10 ≤ n) (h2 : n < 100) :
    (natDecimal n).length = 2 := by
  rw [natDecimal_step n h1, natDecimal_single (n / 10) (by omega)]
  simp

theorem natDecimal_len4 (n : Nat) (h1 : 1000 ≤ n) (h2 : n < 10000) :
    (natDecimal n).length = 4 := by
  rw [natDecimal_step n (by omega),
    natDecimal_step (n / 10) (by omega),
    natDecimal_step (n / 10 / 10) (by omega),
    natDecimal_single (n / 10 / 10 / 10) (by omega)]
  simp

theorem digitChar_isDigit (d : Nat) (h : d < 10) : (digitChar d).isDigit := by
  interval_cases d <;> decide

theorem natDecimal_digits (n : Nat) : ∀ c ∈ natDecimal n, c.isDigit := by
  induction n using Nat.strong_induction_on with
  | _ n ih =>
    intro c hc
    rw [natDecimal] at hc
    split at hc
    · next hn =>
      simp only [List.mem_singleton] at hc
      exact hc ▸ digitChar_isDigit n hn
    · next hn =>
      rcases List.mem_append.mp hc with h1 | h2
      · exact ih (n / 10) (by omega) c h1
      · simp only [List.mem_singleton] at h2
        exact h2 ▸ digitChar_isDigit (n % 10) (Nat.mod_lt n (by omega))

theorem pad2_len (n : Nat) (h : n < 100) : (pad2 n).length = 2 := by
  unfold pad2
  split
  · next hn => rw [natDecimal_single n hn]; simp
  · next hn => exact natDecimal_len2 n (by omega) h

theorem pad2_digits (n : Nat) : ∀ c ∈ pad2 n, c.isDigit := by
  unfold pad2
  split
  · intro c hc
    rcases List.mem_cons.mp hc with h1 | h2
    · exact h1 ▸ (by decide)
    · exact natDecimal_digits n c h2
  · exact natDecimal_digits n

/-- C7: a timestamp scalar renders as a double-quoted string of the exact
shape `YYYY-MM-DDTHH:MM:SS` — four year digits, two digits for each other
field, `-`, `T` and `:` separators, nothing after the seconds (no
timezone, no fractional seconds); and the timestamp 2024-01-02 03:04:05
renders exactly as `"2024-01-02T03:04:05"`, quotes included. -/
theorem timestamp_render_format :
    (∀ loc t, t.tm_mon < 12 → t.tm_mday < 100 → t.tm_hour < 100 → t.tm_min < 100 →
      t.tm_sec < 100 → t.tm_year < 8100 →
      ∃ y mo d h mi s : List Char,
        y.length = 4 ∧ mo.length = 2 ∧ d.length = 2 ∧ h.length = 2 ∧
        mi.length = 2 ∧ s.length = 2 ∧
        (∀ c ∈ y, c.isDigit) ∧ (∀ c ∈ mo, c.isDigit) ∧ (∀ c ∈ d, c.isDigit) ∧
        (∀ c ∈ h, c.isDigit) ∧ (∀ c ∈ mi, c.isDigit) ∧ (∀ c ∈ s, c.isDigit) ∧
        (render loc (.vtm t)).data =
          '"' :: (y ++ '-' :: (mo ++ '-' :: (d ++ 'T' ::
            (h ++ ':' :: (mi ++ ':' :: (s ++ ['"']))))))) ∧
    (∀ loc, render loc (.vtm ⟨5, 4, 3, 2, 0, 124⟩) = "\"2024-01-02T03:04:05\"") := by
  constructor
  · intro loc t hmon hday hhour hmin hsec hyear
    refine ⟨natDecimal (1900 + t.tm_year), pad2 (t.tm_mon + 1), pad2 t.tm_mday,
      pad2 t.tm_hour, pad2 t.tm_min, pad2 t.tm_sec,
      natDecimal_len4 _ (by omega) (by omega), pad2_len _ (by omega), pad2_len _ hday,
      pad2_len _ hhour, pad2_len _ hmin, pad2_len _ hsec,
      natDecimal_digits _, pad2_digits _, pad2_digits _,
      pad2_digits _, pad2_digits _, pad2_digits _, ?_⟩
    simp [render, osShlNode, writeNode, writeImplTm, putTimeISO, List.append_assoc]
  · intro loc
    simp [render, osShlNode, writeNode, writeImplTm, putTimeISO, pad2,
      natDecimal, digitChar, String.ext_iff]

theorem timestamp_render_format_witness :
    (∃ y mo d h mi s : List Char,
      y.length = 4 ∧ mo.length = 2 ∧ d.length = 2 ∧ h.length = 2 ∧
      mi.length = 2 ∧ s.length = 2 ∧
      (∀ c ∈ y, c.isDigit) ∧ (∀ c ∈ mo, c.isDigit) ∧ (∀ c ∈ d, c.isDigit) ∧
      (∀ c ∈ h, c.isDigit) ∧ (∀ c ∈ mi, c.isDigit) ∧ (∀ c ∈ s, c.isDigit) ∧
      (render '.' (.vtm ⟨5, 4, 3, 2, 0, 124⟩)).data =
        '"' :: (y ++ '-' :: (mo ++ '-' :: (d ++ 'T' ::
          (h ++ ':' :: (mi ++ ':' :: (s ++ ['"']))))))) ∧
    render '.' (.vtm ⟨5, 4, 3, 2, 0, 124⟩) = "\"2024-01-02T03:04:05\"" :=
  ⟨timestamp_render_format.1 '.' ⟨5, 4, 3, 2, 0, 124⟩ (by decide) (by decide)
    (by decide) (by decide) (by decide) (by decide),
   timestamp_render_format.2 '.'⟩

/-- C9: rendering is a total function of the tree alone — it is defined
for every node kind (the definitions are total), produces a non-empty
text for every tree, and does not depend on the ambient stream state. -/
theorem render_total (loc : Char) (n : JNode) :
    (render loc n).length ≠ 0 ∧ render loc n = render '.' n := by
  refine ⟨?_, rfl⟩
  have h := writeNode_ne_nil '.' n
  simp only [render, osShlNode, String.length]
  simp [List.length_eq_zero, h]

end Json
